import Mathlib

set_option linter.unusedVariables false

/-!
Shallow embedding of `relineate` (rm2svg, `src/main.rs`): a decoder for the
reMarkable `.lines` version-5 binary format (`parse_file`) and an SVG
projector (`render_svg`).

Modelling conventions:
* The input byte stream is a `List Nat` (each entry one byte, values 0–255);
  reads consume from the front, mirroring the sequential `BufReader`.
* `f32` fields are never interpreted numerically by the program (they are
  stored and later printed), so they are carried as their raw 4-byte
  little-endian bit patterns (a `Nat` below `2 ^ 32`).
* Rust `.unwrap()` panics are modelled as an explicit `PError.panic` outcome:
  a byteorder read hitting end-of-stream panics with a generic
  "failed to fill whole buffer" unwrap message (the same message at every
  call site, here `Panic.unexpectedEof`), and a failed
  `TryFromPrimitive` conversion panics carrying the raw number
  (`Panic.tryFromPrimitive`).
* The `logger` callback calls made by `parse_file` are returned as a list of
  structured `LogEntry` values (the `get_logger` closure only filters them by
  verbosity before printing).
-/

namespace Relineate

/-- One sampled stroke location (struct `Point`); every field is an f32 bit
pattern. -/
structure Point where
  x : Nat
  y : Nat
  speed : Nat
  direction : Nat
  width : Nat
  pressure : Nat
deriving DecidableEq

/-- Enum `BrushType`, `repr(i32)` discriminants 0–18 and 21. -/
inductive BrushType where
  | Paintbrush
  | PencilTilt
  | Pen
  | Marker
  | Fineliner
  | Highlighter
  | Eraser
  | PencilSharp
  | RubberArea
  | EraseAll
  | SelectionBrush1
  | SelectionBrush2
  | Paintbrush2
  | MechanicalPencil
  | Pencil2
  | BallpointPen2
  | Marker2
  | Fineliner2
  | Highlighter2
  | Calligraphy
deriving DecidableEq

/-- `BrushType::try_from` (derived `TryFromPrimitive`): maps a raw i32 to the
variant with that discriminant, `none` outside the declared set. -/
def BrushType.tryFrom : Int → Option BrushType
  | 0 => some .Paintbrush
  | 1 => some .PencilTilt
  | 2 => some .Pen
  | 3 => some .Marker
  | 4 => some .Fineliner
  | 5 => some .Highlighter
  | 6 => some .Eraser
  | 7 => some .PencilSharp
  | 8 => some .RubberArea
  | 9 => some .EraseAll
  | 10 => some .SelectionBrush1
  | 11 => some .SelectionBrush2
  | 12 => some .Paintbrush2
  | 13 => some .MechanicalPencil
  | 14 => some .Pencil2
  | 15 => some .BallpointPen2
  | 16 => some .Marker2
  | 17 => some .Fineliner2
  | 18 => some .Highlighter2
  | 21 => some .Calligraphy
  | _ => none

/-- Enum `BrushColor`, `repr(i32)` discriminants 0, 1, 2. -/
inductive BrushColor where
  | Black
  | Grey
  | White
deriving DecidableEq

/-- `BrushColor::try_from` (derived `TryFromPrimitive`). -/
def BrushColor.tryFrom : Int → Option BrushColor
  | 0 => some .Black
  | 1 => some .Grey
  | 2 => some .White
  | _ => none

/-- Struct `Line`: brush metadata, declared point count, decoded points. -/
structure Line where
  brush_type : BrushType
  brush_color : BrushColor
  padding : Nat
  unknown : Nat
  brush_size : Nat
  num_points : Int
  points : List Point
deriving DecidableEq

/-- Struct `Layer`: declared line count and decoded lines. -/
structure Layer where
  num_lines : Int
  lines : List Line
deriving DecidableEq

/-- A Rust panic raised while decoding (the program calls `.unwrap()` on every
fallible step). End-of-stream reads all panic with the same generic
byteorder unwrap message; a failed enum conversion panics with the
`TryFromPrimitiveError` carrying only the offending number. -/
inductive Panic where
  | unexpectedEof
  | tryFromPrimitive (number : Int)
deriving DecidableEq

/-- How a decode run can stop without a `Document`: a returned `Err` (carrying
the formatted message) or a panic. -/
inductive PError where
  | err (msg : String)
  | panic (p : Panic)
deriving DecidableEq

instance {ε α : Type} [DecidableEq ε] [DecidableEq α] : DecidableEq (Except ε α) := fun x y =>
  match x, y with
  | .ok a, .ok b => if h : a = b then .isTrue (by rw [h]) else .isFalse (by simp [h])
  | .error e, .error e' => if h : e = e' then .isTrue (by rw [h]) else .isFalse (by simp [h])
  | .ok _, .error _ => .isFalse (by simp)
  | .error _, .ok _ => .isFalse (by simp)

/-- Little-endian value of a byte list (first byte least significant). -/
def leNat : List Nat → Nat
  | [] => 0
  | b :: bs => b + 256 * leNat bs

/-- Reinterpret a u32 bit pattern as an i32 (two's complement). -/
def toI32 (n : Nat) : Int :=
  if n < 2 ^ 31 then (n : Int) else (n : Int) - 2 ^ 32

/-- Rust `as usize` on an i32 value: sign-extend to 64 bits. -/
def i32AsUsize (v : Int) : Nat := (v % 2 ^ 64).toNat

/-- A parsing step: consumes bytes from the front of the stream, produces a
value and the remaining stream, or stops the run. -/
def P (α : Type) : Type := List Nat → Except PError (α × List Nat)

/-- Sequencing of parsing steps (the source's sequential reads, each
`.unwrap()`ed, inside the iterator closures). -/
def pbind {α β : Type} (f : P α) (g : α → P β) : P β := fun s =>
  match f s with
  | .error e => .error e
  | .ok (a, rest) => g a rest

/-- A parsing step that consumes nothing. -/
def pret {α : Type} (a : α) : P α := fun s => .ok (a, s)

/-- `read_u32::<LittleEndian>().unwrap()`: four bytes, little-endian; panics
at end of stream. -/
def readU32 : P Nat := fun s =>
  if 4 ≤ s.length then .ok (leNat (s.take 4), s.drop 4)
  else .error (.panic .unexpectedEof)

/-- `read_i32::<LittleEndian>().unwrap()`: the four bytes reinterpreted as a
signed value. -/
def readI32 : P Int :=
  pbind readU32 fun n => pret (toI32 n)

/-- `read_f32::<LittleEndian>().unwrap()`, kept as the raw bit pattern. -/
def readF32 : P Nat := readU32

/-- `try_from(value).unwrap()`: yields the converted variant or panics with
the `TryFromPrimitiveError` for the raw value. -/
def tryFromOrPanic {α : Type} (o : Option α) (v : Int) : P α := fun s =>
  match o with
  | some a => .ok (a, s)
  | none => .error (.panic (.tryFromPrimitive v))

/-- One `Point`: six consecutive f32 fields x, y, speed, direction, width,
pressure. -/
def parsePoint : P Point :=
  pbind readF32 fun x =>
  pbind readF32 fun y =>
  pbind readF32 fun speed =>
  pbind readF32 fun direction =>
  pbind readF32 fun width =>
  pbind readF32 fun pressure =>
  pret { x := x, y := y, speed := speed, direction := direction,
         width := width, pressure := pressure }

/-- `repeat_with(point closure).take(n)` driven by `collect`. -/
def parsePoints : Nat → P (List Point)
  | 0 => pret []
  | n + 1 =>
    pbind parsePoint fun p =>
    pbind (parsePoints n) fun ps =>
    pret (p :: ps)

/-- The `Line` produced inside `repeat_with`: the six metadata fields in
stream order, with an empty point vector. -/
def parseLineHeader : P Line :=
  pbind readI32 fun btv =>
  pbind (tryFromOrPanic (BrushType.tryFrom btv) btv) fun brush_type =>
  pbind readI32 fun bcv =>
  pbind (tryFromOrPanic (BrushColor.tryFrom bcv) bcv) fun brush_color =>
  pbind readU32 fun padding =>
  pbind readF32 fun unknown =>
  pbind readF32 fun brush_size =>
  pbind readI32 fun num_points =>
  pret { brush_type := brush_type, brush_color := brush_color,
         padding := padding, unknown := unknown, brush_size := brush_size,
         num_points := num_points, points := [] }

/-- The `map` over each line: decode `num_points as usize` points and attach
them with a struct-update (`..line`), leaving every other field as read. -/
def parseLine : P Line :=
  pbind parseLineHeader fun line =>
  pbind (parsePoints (i32AsUsize line.num_points)) fun pts =>
  pret { line with points := pts }

/-- `repeat_with(line closure).take(num_lines as usize)` driven by
`collect`. -/
def parseLines : Nat → P (List Line)
  | 0 => pret []
  | n + 1 =>
    pbind parseLine fun l =>
    pbind (parseLines n) fun ls =>
    pret (l :: ls)

/-- One `Layer`: its declared line count followed by that many lines. -/
def parseLayer : P Layer :=
  pbind readI32 fun num_lines =>
  pbind (parseLines (i32AsUsize num_lines)) fun lines =>
  pret { num_lines := num_lines, lines := lines }

/-- `repeat_with(layer closure).take(num_layers as usize)` driven by
`collect`. -/
def parseLayers : Nat → P (List Layer)
  | 0 => pret []
  | n + 1 =>
    pbind parseLayer fun l =>
    pbind (parseLayers n) fun ls =>
    pret (l :: ls)

/-- Everything `parse_file` does after the header: the layer count then the
layers. -/
def parseBody : P (List Layer) :=
  pbind readI32 fun num_layers =>
  parseLayers (i32AsUsize num_layers)

/-- `const HEADER` of the source, 43 ASCII characters. -/
def HEADER : String := "reMarkable .lines file, version=5          "

/-- `HEADER.as_bytes()`. -/
def headerBytes : List Nat := HEADER.data.map (fun c => c.toNat)

/-- A `logger` invocation recorded by `parse_file` (level and payload, in the
order the calls are made). -/
inductive LogEntry where
  | parsingFile
  | actualHeader (bytes : List Nat)
  | expectedHeader (bytes : List Nat)
  | traceLayers (layers : List Layer)
deriving DecidableEq

/-- `parse_file`: read up to `HEADER.len()` bytes, compare with the expected
header (returning `Err` on mismatch), then decode the body; the second
component records the logger calls made along the way. -/
def parse_file (s : List Nat) : Except PError (List Layer) × List LogEntry :=
  let buffer := s.take headerBytes.length
  let baseLog := [LogEntry.parsingFile, LogEntry.actualHeader buffer,
                  LogEntry.expectedHeader headerBytes]
  if buffer ≠ headerBytes then
    (.error (.err "header does not match .rm v5 file"), baseLog)
  else
    match parseBody (s.drop headerBytes.length) with
    | .error e => (.error e, baseLog)
    | .ok (layers, _) => (.ok layers, baseLog ++ [LogEntry.traceLayers layers])

/-- `const X_MAX` of the source. -/
def X_MAX : Nat := 1404

/-- `const Y_MAX` of the source. -/
def Y_MAX : Nat := 1872

/-- One drawing command of an SVG path's `d` data: `move_to` or `line_to`
with absolute coordinates (f32 bit patterns, carried unchanged from the
decoded points). -/
inductive PathCmd where
  | moveTo (x y : Nat)
  | lineTo (x y : Nat)
deriving DecidableEq

/-- An `svg::node::element::Path` as built by `render_svg`: the five style
attributes set on it plus its `d` data. -/
structure SvgPath where
  fill : String
  stroke : String
  strokeWidth : Nat
  strokeLinejoin : String
  strokeLinecap : String
  d : List PathCmd
deriving DecidableEq

/-- An `svg::node::element::Group`: the paths added to it, in order. -/
structure SvgGroup where
  paths : List SvgPath
deriving DecidableEq

/-- An `svg::Document`: the attributes set on it and the groups added, in
order. -/
structure SvgDoc where
  width : Nat
  height : Nat
  viewBox : Nat × Nat × Nat × Nat
  groups : List SvgGroup
deriving DecidableEq

/-- The fold over `points.iter().enumerate()` building the path data: the
command at index 0 is `move_to`, every later one `line_to`. -/
def lineData (points : List Point) : List PathCmd :=
  (points.enum).foldl
    (fun acc ip =>
      if ip.fst = 0 then acc ++ [PathCmd.moveTo ip.snd.x ip.snd.y]
      else acc ++ [PathCmd.lineTo ip.snd.x ip.snd.y])
    []

/-- The path built for one line: fixed styling, `d` from its points. -/
def linePath (line : Line) : SvgPath :=
  { fill := "none", stroke := "black", strokeWidth := 3,
    strokeLinejoin := "round", strokeLinecap := "round",
    d := lineData line.points }

/-- The fold over a layer's lines building its group. -/
def layerGroup (layer : Layer) : SvgGroup :=
  { paths := layer.lines.foldl (fun acc line => acc ++ [linePath line]) [] }

/-- `render_svg`: fold the layers onto a document carrying the fixed canvas
attributes, adding one group per layer; always returns `Ok`. -/
def render_svg (layers : List Layer) : Except String SvgDoc :=
  .ok (layers.foldl
    (fun acc layer => { acc with groups := acc.groups ++ [layerGroup layer] })
    { width := X_MAX, height := Y_MAX, viewBox := (0, 0, X_MAX, Y_MAX),
      groups := [] })

/-- Little-endian 4-byte encoding of a u32 value. -/
def u32Bytes (n : Nat) : List Nat :=
  [n % 256, n / 256 % 256, n / 256 ^ 2 % 256, n / 256 ^ 3 % 256]

/-- Little-endian 4-byte encoding of an i32 value (two's complement). -/
def i32Bytes (v : Int) : List Nat := u32Bytes ((v % 2 ^ 32).toNat)

/-- A parsing step consumes an identifiable prefix: on success the remaining
stream is a suffix of the input and the outcome depends only on the consumed
prefix. -/
def Chomps {α : Type} (f : P α) : Prop :=
  ∀ s a rest, f s = .ok (a, rest) →
    ∃ c, s = c ++ rest ∧ ∀ t, f (c ++ t) = .ok (a, t)

/-- Cutting a stream the step succeeds on anywhere strictly inside its
consumed prefix makes the step hit end of stream and panic. -/
def EofTrunc {α : Type} (f : P α) : Prop :=
  ∀ s a rest k, f s = .ok (a, rest) → k < s.length - rest.length →
    f (s.take k) = .error (.panic .unexpectedEof)

/-- Every failure of the step is a panic, never a returned `Err`. -/
def PanicsOnly {α : Type} (f : P α) : Prop :=
  ∀ s m, f s ≠ .error (.err m)

/-- The three well-behavedness properties every decoding step of this program
enjoys, bundled. -/
def Good {α : Type} (f : P α) : Prop :=
  Chomps f ∧ EofTrunc f ∧ PanicsOnly f

/-- The line record decoded from 24 zero bytes: brush type 0 (`Paintbrush`),
color 0 (`Black`), all numeric fields 0, no points. -/
def zeroLine : Line :=
  { brush_type := .Paintbrush, brush_color := .Black, padding := 0,
    unknown := 0, brush_size := 0, num_points := 0, points := [] }

/-- The end-to-end example stream of the specification: one layer, one line,
brush type 2 (`Pen`), color 0, reserved 0, unknown 0.0, brush size 2.0
(bits `0x40000000`), two points (10.0, 20.0, 0, 0, 0, 0) and
(15.0, 25.0, 0, 0, 0, 0) (f32 bit patterns `0x41200000`, `0x41A00000`,
`0x41700000`, `0x41C80000`). -/
def e2eStream : List Nat :=
  headerBytes ++
  [1, 0, 0, 0] ++
  [1, 0, 0, 0] ++
  [2, 0, 0, 0] ++
  [0, 0, 0, 0] ++
  [0, 0, 0, 0] ++
  [0, 0, 0, 0] ++
  [0, 0, 0, 64] ++
  [2, 0, 0, 0] ++
  [0, 0, 32, 65] ++ [0, 0, 160, 65] ++ [0, 0, 0, 0] ++ [0, 0, 0, 0] ++
    [0, 0, 0, 0] ++ [0, 0, 0, 0] ++
  [0, 0, 112, 65] ++ [0, 0, 200, 65] ++ [0, 0, 0, 0] ++ [0, 0, 0, 0] ++
    [0, 0, 0, 0] ++ [0, 0, 0, 0]

/-- The first point of the end-to-end example: (10.0, 20.0, 0, 0, 0, 0). -/
def e2ePoint1 : Point :=
  { x := 0x41200000, y := 0x41A00000, speed := 0, direction := 0,
    width := 0, pressure := 0 }

/-- The second point of the end-to-end example: (15.0, 25.0, 0, 0, 0, 0). -/
def e2ePoint2 : Point :=
  { x := 0x41700000, y := 0x41C80000, speed := 0, direction := 0,
    width := 0, pressure := 0 }

/-- The line the end-to-end example decodes to. -/
def e2eLine : Line :=
  { brush_type := .Pen, brush_color := .Black, padding := 0, unknown := 0,
    brush_size := 0x40000000, num_points := 2,
    points := [e2ePoint1, e2ePoint2] }

/-- The layer the end-to-end example decodes to. -/
def e2eLayer : Layer := { num_lines := 1, lines := [e2eLine] }

/-- The line record of the end-to-end example as produced by the
`repeat_with` closure, before its points are attached. -/
def e2eLineHeader : Line :=
  { brush_type := .Pen, brush_color := .Black, padding := 0, unknown := 0,
    brush_size := 0x40000000, num_points := 2, points := [] }

theorem u32Bytes_length (n : Nat) : (u32Bytes n).length = 4 := rfl

theorem leNat_u32Bytes (n : Nat) (h : n < 2 ^ 32) : leNat (u32Bytes n) = n := by
  simp only [u32Bytes, leNat]
  omega

theorem toI32_emod (v : Int) (h1 : -(2 ^ 31) ≤ v) (h2 : v < 2 ^ 31) :
    toI32 ((v % 2 ^ 32).toNat) = v := by
  unfold toI32
  have hmod : v % 2 ^ 32 = v ∨ v % 2 ^ 32 = v + 2 ^ 32 := by omega
  split <;> omega

theorem leNat_i32Bytes (v : Int) (h1 : -(2 ^ 31) ≤ v) (h2 : v < 2 ^ 31) :
    toI32 (leNat (i32Bytes v)) = v := by
  rw [i32Bytes, leNat_u32Bytes _ (by omega), toI32_emod v h1 h2]

theorem pbind_eq_ok {α β : Type} {f : P α} {g : α → P β} {s : List Nat}
    {a : α} {r : List Nat} (h : f s = .ok (a, r)) : pbind f g s = g a r := by
  unfold pbind
  rw [h]

theorem pbind_eq_err {α β : Type} {f : P α} {g : α → P β} {s : List Nat}
    {e : PError} (h : f s = .error e) : pbind f g s = .error e := by
  unfold pbind
  rw [h]

theorem pbind_ok {α β : Type} {f : P α} {g : α → P β} {s : List Nat} {b : β}
    {rest : List Nat} (h : pbind f g s = .ok (b, rest)) :
    ∃ a r1, f s = .ok (a, r1) ∧ g a r1 = .ok (b, rest) := by
  unfold pbind at h
  split at h
  · exact absurd h (by simp)
  · next a r1 heq => exact ⟨a, r1, heq, h⟩

theorem chomps_pret {α : Type} (a : α) : Chomps (pret a) := by
  intro s b rest h
  simp only [pret, Except.ok.injEq, Prod.mk.injEq] at h
  exact ⟨[], by simp [h.2], fun t => by simp [pret, h.1]⟩

theorem chomps_readU32 : Chomps readU32 := by
  intro s a rest h
  unfold readU32 at h
  split at h
  · next hlen =>
    simp only [Except.ok.injEq, Prod.mk.injEq] at h
    obtain ⟨ha, hrest⟩ := h
    have hl : (s.take 4).length = 4 := by
      rw [List.length_take]
      omega
    refine ⟨s.take 4, ?_, ?_⟩
    · conv_lhs => rw [← List.take_append_drop 4 s]
      rw [hrest]
    · intro t
      generalize hc : s.take 4 = c at hl ha
      unfold readU32
      rw [if_pos (by rw [List.length_append, hl]; omega)]
      rw [← hl, List.take_left, List.drop_left, ← ha]
  · exact absurd h (by simp)

theorem chomps_pbind {α β : Type} {f : P α} {g : α → P β}
    (hf : Chomps f) (hg : ∀ a, Chomps (g a)) : Chomps (pbind f g) := by
  intro s b rest h
  obtain ⟨a, r1, hfs, hgs⟩ := pbind_ok h
  obtain ⟨c1, hs1, hrun1⟩ := hf s a r1 hfs
  obtain ⟨c2, hs2, hrun2⟩ := hg a r1 b rest hgs
  refine ⟨c1 ++ c2, by rw [hs1, hs2, List.append_assoc], ?_⟩
  intro t
  rw [List.append_assoc, pbind_eq_ok (hrun1 (c2 ++ t))]
  exact hrun2 t

theorem eofTrunc_pret {α : Type} (a : α) : EofTrunc (pret a) := by
  intro s b rest k h hk
  simp only [pret, Except.ok.injEq, Prod.mk.injEq] at h
  rw [h.2] at hk
  omega

theorem eofTrunc_readU32 : EofTrunc readU32 := by
  intro s a rest k h hk
  unfold readU32 at h
  split at h
  · next hlen =>
    simp only [Except.ok.injEq, Prod.mk.injEq] at h
    have hr : rest.length = s.length - 4 := by
      rw [← h.2]
      simp
    unfold readU32
    rw [if_neg (by rw [List.length_take]; omega)]
  · exact absurd h (by simp)

theorem chomps_tryFromOrPanic {α : Type} (o : Option α) (v : Int) :
    Chomps (tryFromOrPanic o v) := by
  intro s a rest h
  cases o with
  | none => exact absurd h (by simp [tryFromOrPanic])
  | some b =>
    simp only [tryFromOrPanic, Except.ok.injEq, Prod.mk.injEq] at h
    obtain ⟨hba, hsr⟩ := h
    exact ⟨[], by simp [hsr], fun t => by simp [tryFromOrPanic, hba]⟩

theorem eofTrunc_tryFromOrPanic {α : Type} (o : Option α) (v : Int) :
    EofTrunc (tryFromOrPanic o v) := by
  intro s a rest k h hk
  cases o with
  | none => exact absurd h (by simp [tryFromOrPanic])
  | some b =>
    simp only [tryFromOrPanic, Except.ok.injEq, Prod.mk.injEq] at h
    rw [h.2] at hk
    omega

theorem eofTrunc_pbind {α β : Type} {f : P α} {g : α → P β}
    (hfc : Chomps f) (hfe : EofTrunc f)
    (hgc : ∀ a, Chomps (g a)) (hge : ∀ a, EofTrunc (g a)) :
    EofTrunc (pbind f g) := by
  intro s b rest k h hk
  obtain ⟨a, r1, hfs, hgs⟩ := pbind_ok h
  obtain ⟨c1, hs1, hrun1⟩ := hfc s a r1 hfs
  obtain ⟨c2, hs2, hrun2⟩ := hgc a r1 b rest hgs
  have hlen1 : s.length = c1.length + r1.length := by
    rw [hs1]
    simp
  have hlen2 : r1.length = c2.length + rest.length := by
    rw [hs2]
    simp
  by_cases hcase : k < c1.length
  · exact pbind_eq_err (hfe s a r1 k hfs (by omega))
  · push_neg at hcase
    have htake : s.take k = c1 ++ r1.take (k - c1.length) := by
      rw [hs1, List.take_append_eq_append_take, List.take_of_length_le hcase]
    have hft : f (s.take k) = .ok (a, r1.take (k - c1.length)) := by
      rw [htake]
      exact hrun1 _
    rw [pbind_eq_ok hft]
    exact hge a r1 b rest (k - c1.length) hgs (by omega)

theorem panicsOnly_pret {α : Type} (a : α) : PanicsOnly (pret a) := by
  intro s m
  simp [pret]

theorem panicsOnly_readU32 : PanicsOnly readU32 := by
  intro s m
  unfold readU32
  split <;> simp

theorem panicsOnly_tryFromOrPanic {α : Type} (o : Option α) (v : Int) :
    PanicsOnly (tryFromOrPanic o v) := by
  intro s m
  cases o <;> simp [tryFromOrPanic]

theorem panicsOnly_pbind {α β : Type} {f : P α} {g : α → P β}
    (hf : PanicsOnly f) (hg : ∀ a, PanicsOnly (g a)) :
    PanicsOnly (pbind f g) := by
  intro s m
  unfold pbind
  split
  · next e heq =>
    intro hcon
    simp only [Except.error.injEq] at hcon
    exact hf s m (by rw [heq, hcon])
  · next a r heq => exact hg a r m

theorem chomps_readI32 : Chomps readI32 :=
  chomps_pbind chomps_readU32 (fun n => chomps_pret (toI32 n))

theorem eofTrunc_readI32 : EofTrunc readI32 :=
  eofTrunc_pbind chomps_readU32 eofTrunc_readU32
    (fun n => chomps_pret (toI32 n)) (fun n => eofTrunc_pret (toI32 n))

theorem panicsOnly_readI32 : PanicsOnly readI32 :=
  panicsOnly_pbind panicsOnly_readU32 (fun n => panicsOnly_pret (toI32 n))

theorem good_pret {α : Type} (a : α) : Good (pret a) :=
  ⟨chomps_pret a, eofTrunc_pret a, panicsOnly_pret a⟩

theorem good_readU32 : Good readU32 :=
  ⟨chomps_readU32, eofTrunc_readU32, panicsOnly_readU32⟩

theorem good_readI32 : Good readI32 :=
  ⟨chomps_readI32, eofTrunc_readI32, panicsOnly_readI32⟩

theorem good_readF32 : Good readF32 := good_readU32

theorem good_tryFromOrPanic {α : Type} (o : Option α) (v : Int) :
    Good (tryFromOrPanic o v) :=
  ⟨chomps_tryFromOrPanic o v, eofTrunc_tryFromOrPanic o v,
   panicsOnly_tryFromOrPanic o v⟩

theorem good_pbind {α β : Type} {f : P α} {g : α → P β}
    (hf : Good f) (hg : ∀ a, Good (g a)) : Good (pbind f g) :=
  ⟨chomps_pbind hf.1 (fun a => (hg a).1),
   eofTrunc_pbind hf.1 hf.2.1 (fun a => (hg a).1) (fun a => (hg a).2.1),
   panicsOnly_pbind hf.2.2 (fun a => (hg a).2.2)⟩

theorem good_parsePoint : Good parsePoint :=
  good_pbind good_readF32 fun x =>
  good_pbind good_readF32 fun y =>
  good_pbind good_readF32 fun speed =>
  good_pbind good_readF32 fun direction =>
  good_pbind good_readF32 fun width =>
  good_pbind good_readF32 fun pressure =>
  good_pret _

theorem good_parsePoints : ∀ n : Nat, Good (parsePoints n)
  | 0 => good_pret []
  | n + 1 =>
    good_pbind good_parsePoint fun p =>
    good_pbind (good_parsePoints n) fun ps =>
    good_pret _

theorem good_parseLineHeader : Good parseLineHeader :=
  good_pbind good_readI32 fun btv =>
  good_pbind (good_tryFromOrPanic _ _) fun brush_type =>
  good_pbind good_readI32 fun bcv =>
  good_pbind (good_tryFromOrPanic _ _) fun brush_color =>
  good_pbind good_readU32 fun padding =>
  good_pbind good_readF32 fun unknown =>
  good_pbind good_readF32 fun brush_size =>
  good_pbind good_readI32 fun num_points =>
  good_pret _

theorem good_parseLine : Good parseLine :=
  good_pbind good_parseLineHeader fun line =>
  good_pbind (good_parsePoints _) fun pts =>
  good_pret _

theorem good_parseLines : ∀ n : Nat, Good (parseLines n)
  | 0 => good_pret []
  | n + 1 =>
    good_pbind good_parseLine fun l =>
    good_pbind (good_parseLines n) fun ls =>
    good_pret _

theorem good_parseLayer : Good parseLayer :=
  good_pbind good_readI32 fun num_lines =>
  good_pbind (good_parseLines _) fun lines =>
  good_pret _

theorem good_parseLayers : ∀ n : Nat, Good (parseLayers n)
  | 0 => good_pret []
  | n + 1 =>
    good_pbind good_parseLayer fun l =>
    good_pbind (good_parseLayers n) fun ls =>
    good_pret _

theorem good_parseBody : Good parseBody :=
  good_pbind good_readI32 fun num_layers =>
  good_parseLayers _

theorem parsePoints_length : ∀ (n : Nat) (s : List Nat) (ps : List Point)
    (rest : List Nat), parsePoints n s = .ok (ps, rest) → ps.length = n := by
  intro n
  induction n with
  | zero =>
    intro s ps rest h
    simp only [parsePoints, pret, Except.ok.injEq, Prod.mk.injEq] at h
    rw [← h.1]
    rfl
  | succ n ih =>
    intro s ps rest h
    simp only [parsePoints] at h
    obtain ⟨p, r1, hp, h2⟩ := pbind_ok h
    obtain ⟨ps', r2, hps, h3⟩ := pbind_ok h2
    simp only [pret, Except.ok.injEq, Prod.mk.injEq] at h3
    rw [← h3.1]
    simp [ih r1 ps' r2 hps]

theorem parseLine_ok {s : List Nat} {line : Line} {rest : List Nat}
    (h : parseLine s = .ok (line, rest)) :
    ∃ lh s1 pts, parseLineHeader s = .ok (lh, s1) ∧
      parsePoints (i32AsUsize lh.num_points) s1 = .ok (pts, rest) ∧
      line = { lh with points := pts } := by
  unfold parseLine at h
  obtain ⟨lh, s1, hlh, h2⟩ := pbind_ok h
  obtain ⟨pts, s2, hpts, h3⟩ := pbind_ok h2
  simp only [pret, Except.ok.injEq, Prod.mk.injEq] at h3
  refine ⟨lh, s1, pts, hlh, ?_, h3.1.symm⟩
  rw [← h3.2]
  exact hpts

theorem parseLine_points_length {s : List Nat} {line : Line} {rest : List Nat}
    (h : parseLine s = .ok (line, rest)) :
    line.points.length = i32AsUsize line.num_points := by
  obtain ⟨lh, s1, pts, hlh, hpts, hline⟩ := parseLine_ok h
  subst hline
  simp [parsePoints_length _ _ _ _ hpts]

theorem parseLines_ok : ∀ (n : Nat) (s : List Nat) (ls : List Line)
    (rest : List Nat), parseLines n s = .ok (ls, rest) →
    ls.length = n ∧
    ∀ line ∈ ls, line.points.length = i32AsUsize line.num_points := by
  intro n
  induction n with
  | zero =>
    intro s ls rest h
    simp only [parseLines, pret, Except.ok.injEq, Prod.mk.injEq] at h
    rw [← h.1]
    exact ⟨rfl, by simp⟩
  | succ n ih =>
    intro s ls rest h
    simp only [parseLines] at h
    obtain ⟨l, r1, hl, h2⟩ := pbind_ok h
    obtain ⟨ls', r2, hls, h3⟩ := pbind_ok h2
    simp only [pret, Except.ok.injEq, Prod.mk.injEq] at h3
    obtain ⟨hlen, hinv⟩ := ih r1 ls' r2 hls
    rw [← h3.1]
    refine ⟨by simp [hlen], ?_⟩
    intro line hmem
    rcases List.mem_cons.mp hmem with hq | hq
    · rw [hq]
      exact parseLine_points_length hl
    · exact hinv line hq

theorem parseLayer_ok {s : List Nat} {layer : Layer} {rest : List Nat}
    (h : parseLayer s = .ok (layer, rest)) :
    layer.lines.length = i32AsUsize layer.num_lines ∧
    ∀ line ∈ layer.lines,
      line.points.length = i32AsUsize line.num_points := by
  unfold parseLayer at h
  obtain ⟨nl, s1, hnl, h2⟩ := pbind_ok h
  obtain ⟨ls, s2, hls, h3⟩ := pbind_ok h2
  simp only [pret, Except.ok.injEq, Prod.mk.injEq] at h3
  obtain ⟨hlen, hinv⟩ := parseLines_ok _ _ _ _ hls
  rw [← h3.1]
  exact ⟨by simpa using hlen, by simpa using hinv⟩

theorem parseLayers_ok : ∀ (n : Nat) (s : List Nat) (ls : List Layer)
    (rest : List Nat), parseLayers n s = .ok (ls, rest) →
    ls.length = n ∧
    ∀ layer ∈ ls, layer.lines.length = i32AsUsize layer.num_lines ∧
      ∀ line ∈ layer.lines,
        line.points.length = i32AsUsize line.num_points := by
  intro n
  induction n with
  | zero =>
    intro s ls rest h
    simp only [parseLayers, pret, Except.ok.injEq, Prod.mk.injEq] at h
    rw [← h.1]
    exact ⟨rfl, by simp⟩
  | succ n ih =>
    intro s ls rest h
    simp only [parseLayers] at h
    obtain ⟨l, r1, hl, h2⟩ := pbind_ok h
    obtain ⟨ls', r2, hls, h3⟩ := pbind_ok h2
    simp only [pret, Except.ok.injEq, Prod.mk.injEq] at h3
    obtain ⟨hlen, hinv⟩ := ih r1 ls' r2 hls
    rw [← h3.1]
    refine ⟨by simp [hlen], ?_⟩
    intro layer hmem
    rcases List.mem_cons.mp hmem with hq | hq
    · rw [hq]
      exact parseLayer_ok hl
    · exact hinv layer hq

theorem parseBody_ok {s : List Nat} {layers : List Layer} {rest : List Nat}
    (h : parseBody s = .ok (layers, rest)) :
    ∀ layer ∈ layers,
      layer.lines.length = i32AsUsize layer.num_lines ∧
      ∀ line ∈ layer.lines,
        line.points.length = i32AsUsize line.num_points := by
  unfold parseBody at h
  obtain ⟨nl, s1, hnl, h2⟩ := pbind_ok h
  exact (parseLayers_ok _ _ _ _ h2).2

theorem headerBytes_length : headerBytes.length = 43 := by decide

theorem parse_file_mismatch {s : List Nat} (hh : s.take 43 ≠ headerBytes) :
    parse_file s = (.error (.err "header does not match .rm v5 file"),
      [.parsingFile, .actualHeader (s.take 43),
       .expectedHeader headerBytes]) := by
  unfold parse_file
  rw [headerBytes_length, if_pos hh]

theorem parse_file_hdr {s : List Nat} (hh : s.take 43 = headerBytes) :
    (parse_file s).fst = Except.map Prod.fst (parseBody (s.drop 43)) := by
  unfold parse_file
  rw [headerBytes_length, if_neg (by simpa using hh)]
  cases hb : parseBody (s.drop 43) with
  | error e => simp [Except.map]
  | ok p => cases p with
    | mk layers r => simp [Except.map]

theorem foldl_append_map {α β : Type} (l : List α) (f : α → β) :
    ∀ init : List β,
      l.foldl (fun acc x => acc ++ [f x]) init = init ++ l.map f := by
  induction l with
  | nil =>
    intro init
    simp
  | cons x xs ih =>
    intro init
    simp [ih]

theorem layerGroup_paths (layer : Layer) :
    (layerGroup layer).paths = layer.lines.map linePath := by
  unfold layerGroup
  rw [foldl_append_map]
  simp

theorem foldl_groups (layers : List Layer) :
    ∀ d : SvgDoc,
      layers.foldl
        (fun acc layer => { acc with groups := acc.groups ++ [layerGroup layer] }) d =
      { d with groups := d.groups ++ layers.map layerGroup } := by
  induction layers with
  | nil =>
    intro d
    simp
  | cons x xs ih =>
    intro d
    simp [ih]

theorem render_svg_eq (layers : List Layer) :
    render_svg layers = .ok
      { width := X_MAX, height := Y_MAX, viewBox := (0, 0, X_MAX, Y_MAX),
        groups := layers.map layerGroup } := by
  unfold render_svg
  rw [foldl_groups]
  simp

theorem lineData_eq_map (points : List Point) :
    lineData points = points.enum.map
      (fun ip => if ip.fst = 0 then PathCmd.moveTo ip.snd.x ip.snd.y
                 else PathCmd.lineTo ip.snd.x ip.snd.y) := by
  unfold lineData
  have hfun : (fun (acc : List PathCmd) (ip : Nat × Point) =>
      if ip.fst = 0 then acc ++ [PathCmd.moveTo ip.snd.x ip.snd.y]
      else acc ++ [PathCmd.lineTo ip.snd.x ip.snd.y]) =
      fun acc ip =>
        acc ++ [if ip.fst = 0 then PathCmd.moveTo ip.snd.x ip.snd.y
                else PathCmd.lineTo ip.snd.x ip.snd.y] := by
    funext acc ip
    split <;> rfl
  rw [hfun, foldl_append_map]
  simp

theorem map_enumFrom_ne_zero (ps : List Point) :
    ∀ j : Nat, (ps.enumFrom (j + 1)).map
      (fun ip => if ip.fst = 0 then PathCmd.moveTo ip.snd.x ip.snd.y
                 else PathCmd.lineTo ip.snd.x ip.snd.y) =
      ps.map (fun q => PathCmd.lineTo q.x q.y) := by
  induction ps with
  | nil =>
    intro j
    rfl
  | cons q qs ih =>
    intro j
    simp only [List.enumFrom, List.map]
    rw [ih (j + 1)]
    simp

theorem lineData_cons (p : Point) (ps : List Point) :
    lineData (p :: ps) =
      PathCmd.moveTo p.x p.y :: ps.map (fun q => PathCmd.lineTo q.x q.y) := by
  rw [lineData_eq_map]
  simp only [List.enum, List.enumFrom, List.map]
  rw [map_enumFrom_ne_zero ps 0]
  simp

theorem lineData_length (points : List Point) :
    (lineData points).length = points.length := by
  cases points with
  | nil => rfl
  | cons p ps =>
    rw [lineData_cons]
    simp

theorem readI32_i32Bytes (v : Int) (rest : List Nat)
    (h1 : -(2 ^ 31) ≤ v) (h2 : v < 2 ^ 31) :
    readI32 (i32Bytes v ++ rest) = .ok (v, rest) := by
  have hlen : (i32Bytes v).length = 4 := rfl
  have hu : readU32 (i32Bytes v ++ rest) = .ok (leNat (i32Bytes v), rest) := by
    unfold readU32
    rw [if_pos (by rw [List.length_append, hlen]; omega)]
    rw [← hlen, List.take_left, List.drop_left]
  unfold readI32
  rw [pbind_eq_ok hu]
  simp [pret, leNat_i32Bytes v h1 h2]

theorem readU32_short {s : List Nat} (h : s.length < 4) :
    readU32 s = .error (.panic .unexpectedEof) := by
  unfold readU32
  rw [if_neg (by omega)]

theorem readI32_short {s : List Nat} (h : s.length < 4) :
    readI32 s = .error (.panic .unexpectedEof) := by
  unfold readI32
  exact pbind_eq_err (readU32_short h)

theorem i32AsUsize_neg (v : Int) (h1 : -(2 ^ 31) ≤ v) (h2 : v < 0) :
    i32AsUsize v = (2 ^ 64 + v).toNat ∧ 2 ^ 63 < i32AsUsize v := by
  unfold i32AsUsize
  constructor <;> omega

theorem i32AsUsize_nonneg (v : Int) (h1 : 0 ≤ v) (h2 : v < 2 ^ 31) :
    (i32AsUsize v : Int) = v := by
  unfold i32AsUsize
  omega

theorem parseLayers_succ_short (k : Nat) {s : List Nat} (h : s.length < 4) :
    parseLayers (k + 1) s = .error (.panic .unexpectedEof) := by
  have hlayer : parseLayer s = .error (.panic .unexpectedEof) := by
    unfold parseLayer
    exact pbind_eq_err (readI32_short h)
  simp only [parseLayers]
  exact pbind_eq_err hlayer

theorem parseLine_zeros (t : List Nat) :
    parseLine (List.replicate 24 0 ++ t) = .ok (zeroLine, t) := by
  have h0 : parseLine (List.replicate 24 0) = .ok (zeroLine, []) := by decide
  obtain ⟨c, hc, hrun⟩ := good_parseLine.1 _ _ _ h0
  rw [List.append_nil] at hc
  rw [← hc] at hrun
  exact hrun t

theorem parseLines_zeros : ∀ (n : Nat) (t : List Nat),
    parseLines n (List.replicate (24 * n) 0 ++ t) =
      .ok (List.replicate n zeroLine, t) := by
  intro n
  induction n with
  | zero =>
    intro t
    simp [parseLines, pret]
  | succ n ih =>
    intro t
    have hsplit : List.replicate (24 * (n + 1)) (0 : Nat) =
        List.replicate 24 0 ++ List.replicate (24 * n) 0 := by
      rw [← List.replicate_add]
      congr 1
      ring
    simp only [parseLines]
    rw [hsplit, List.append_assoc, pbind_eq_ok (parseLine_zeros _),
        pbind_eq_ok (ih t)]
    simp [pret, List.replicate_succ]

theorem brushType_tryFrom_none (v : Int) :
    BrushType.tryFrom v = none ↔ ¬(0 ≤ v ∧ v ≤ 18 ∨ v = 21) := by
  constructor
  · intro h hv
    rcases hv with ⟨h0, h18⟩ | h21
    · interval_cases v <;> simp [BrushType.tryFrom] at h
    · rw [h21] at h
      simp [BrushType.tryFrom] at h
  · intro h
    unfold BrushType.tryFrom
    split <;> first | rfl | (exfalso; apply h; omega)

theorem brushColor_tryFrom_none (v : Int) :
    BrushColor.tryFrom v = none ↔ ¬(0 ≤ v ∧ v ≤ 2) := by
  constructor
  · intro h hv
    obtain ⟨h0, h2⟩ := hv
    interval_cases v <;> simp [BrushColor.tryFrom] at h
  · intro h
    unfold BrushColor.tryFrom
    split <;> first | rfl | (exfalso; apply h; omega)

theorem parseLineHeader_badBrushType {v : Int} (rest : List Nat)
    (h1 : -(2 ^ 31) ≤ v) (h2 : v < 2 ^ 31)
    (hnone : BrushType.tryFrom v = none) :
    parseLineHeader (i32Bytes v ++ rest) =
      .error (.panic (.tryFromPrimitive v)) := by
  unfold parseLineHeader
  rw [pbind_eq_ok (readI32_i32Bytes v rest h1 h2)]
  apply pbind_eq_err
  simp [tryFromOrPanic, hnone]

theorem parseLineHeader_badBrushColor {vt vc : Int} {bt : BrushType}
    (rest : List Nat)
    (ht1 : -(2 ^ 31) ≤ vt) (ht2 : vt < 2 ^ 31)
    (hc1 : -(2 ^ 31) ≤ vc) (hc2 : vc < 2 ^ 31)
    (hbt : BrushType.tryFrom vt = some bt)
    (hnone : BrushColor.tryFrom vc = none) :
    parseLineHeader (i32Bytes vt ++ (i32Bytes vc ++ rest)) =
      .error (.panic (.tryFromPrimitive vc)) := by
  unfold parseLineHeader
  rw [pbind_eq_ok (readI32_i32Bytes vt _ ht1 ht2)]
  rw [pbind_eq_ok (show tryFromOrPanic (BrushType.tryFrom vt) vt
        (i32Bytes vc ++ rest) = .ok (bt, i32Bytes vc ++ rest) by
      simp [tryFromOrPanic, hbt])]
  rw [pbind_eq_ok (readI32_i32Bytes vc rest hc1 hc2)]
  apply pbind_eq_err
  simp [tryFromOrPanic, hnone]

theorem parse_file_ok {s : List Nat} {layers : List Layer}
    (h : (parse_file s).fst = .ok layers) :
    s.take 43 = headerBytes ∧
    ∃ rest, parseBody (s.drop 43) = .ok (layers, rest) := by
  by_cases hh : s.take 43 = headerBytes
  · refine ⟨hh, ?_⟩
    rw [parse_file_hdr hh] at h
    cases hb : parseBody (s.drop 43) with
    | error e =>
      rw [hb] at h
      simp [Except.map] at h
    | ok p =>
      rw [hb] at h
      cases p with
      | mk ls r =>
        simp [Except.map] at h
        exact ⟨r, by rw [h]⟩
  · rw [parse_file_mismatch hh] at h
    simp at h

/-- Sanity check of the whole embedding on the specification's end-to-end
example stream. -/
theorem parse_file_e2e : (parse_file e2eStream).fst = .ok [e2eLayer] := by
  decide

/-- Claim C1 counterexample: with a valid header followed by layer count -1
and nothing else, the decoder does not produce zero layers (it would then
succeed with the empty document); `-1 as usize` is `2 ^ 64 - 1`, the huge
iteration is attempted, and the first layer read panics at end of
stream. -/
theorem C1_counterexample :
    (parse_file (headerBytes ++ [255, 255, 255, 255])).fst =
      .error (.panic .unexpectedEof) ∧
    (parse_file (headerBytes ++ [255, 255, 255, 255])).fst ≠ .ok [] ∧
    i32AsUsize (-1) = 2 ^ 64 - 1 := by
  refine ⟨by decide, by decide, by decide⟩

/-- Claim C1 (amended): a negative declared count is cast to `usize` by sign
extension, so the decoder attempts `2 ^ 64 + count` iterations (more than
`2 ^ 63`) rather than treating the count as zero records; when fewer than 4
bytes remain the first iteration's read panics at end of stream. (Stated for
the layer count; the line and point counts go through the same
`as usize`.) -/
theorem C1_negative_count_attempts_huge_iteration (v : Int) (rest : List Nat)
    (hneg : v < 0) (hrange : -(2 ^ 31) ≤ v) (hshort : rest.length < 4) :
    i32AsUsize v = (2 ^ 64 + v).toNat ∧ 2 ^ 63 < i32AsUsize v ∧
    (parse_file (headerBytes ++ (i32Bytes v ++ rest))).fst =
      .error (.panic .unexpectedEof) := by
  obtain ⟨hcast, hbig⟩ := i32AsUsize_neg v hrange hneg
  refine ⟨hcast, hbig, ?_⟩
  have htake : (headerBytes ++ (i32Bytes v ++ rest)).take 43 = headerBytes := by
    rw [← headerBytes_length]
    exact List.take_left _ _
  have hdrop : (headerBytes ++ (i32Bytes v ++ rest)).drop 43 =
      i32Bytes v ++ rest := by
    rw [← headerBytes_length]
    exact List.drop_left _ _
  rw [parse_file_hdr htake, hdrop]
  unfold parseBody
  rw [pbind_eq_ok (readI32_i32Bytes v rest hrange (by omega))]
  obtain ⟨k, hk⟩ : ∃ k, i32AsUsize v = k + 1 := ⟨i32AsUsize v - 1, by omega⟩
  rw [hk, parseLayers_succ_short k hshort]
  rfl

/-- Witness for the amended C1 theorem at count -1 with an empty tail. -/
theorem C1_negative_count_witness :
    i32AsUsize (-1) = (2 ^ 64 + (-1 : Int)).toNat ∧
    2 ^ 63 < i32AsUsize (-1) ∧
    (parse_file (headerBytes ++ (i32Bytes (-1) ++ []))).fst =
      .error (.panic .unexpectedEof) :=
  C1_negative_count_attempts_huge_iteration (-1) [] (by norm_num)
    (by norm_num) (by simp)

/-- Claim C2 counterexample: the magic header the program validates is 43
bytes long, not 44. Two streams that differ within their first 44 bytes
(at byte index 43) both get past header validation — one even decodes to a
Document — so no exact 44-byte header governs success. -/
theorem C2_counterexample :
    headerBytes.length = 43 ∧
    (parse_file (headerBytes ++ [0, 0, 0, 0])).fst = .ok [] ∧
    (parse_file (headerBytes ++ [32, 32, 32, 32])).fst ≠
      .error (.err "header does not match .rm v5 file") ∧
    (headerBytes ++ [0, 0, 0, 0]).take 44 ≠
      (headerBytes ++ [32, 32, 32, 32]).take 44 := by
  refine ⟨by decide, by decide, by decide, by decide⟩

/-- Claim C2 (amended): decode gets past header validation iff the stream
begins with the exact 43-byte ASCII magic header; any mismatch, including a
short read, fails with the header-mismatch error (a fixed message), never
returns a Document, and the debug log reports the header actually presented
next to the expected one. -/
theorem C2_header_gate (s : List Nat) :
    ((parse_file s).fst ≠ .error (.err "header does not match .rm v5 file") ↔
      s.take 43 = headerBytes) ∧
    (s.take 43 ≠ headerBytes →
      (parse_file s).fst = .error (.err "header does not match .rm v5 file") ∧
      (∀ layers, (parse_file s).fst ≠ .ok layers) ∧
      (parse_file s).snd = [.parsingFile, .actualHeader (s.take 43),
        .expectedHeader headerBytes]) := by
  by_cases hh : s.take 43 = headerBytes
  · refine ⟨⟨fun _ => hh, fun _ hcon => ?_⟩, fun hcon => absurd hh hcon⟩
    rw [parse_file_hdr hh] at hcon
    cases hb : parseBody (s.drop 43) with
    | error e =>
      rw [hb] at hcon
      simp only [Except.map, Except.error.injEq] at hcon
      exact good_parseBody.2.2 (s.drop 43) _ (by rw [hb, hcon])
    | ok p =>
      rw [hb] at hcon
      simp [Except.map] at hcon
  · constructor
    · constructor
      · intro hne
        exfalso
        apply hne
        rw [parse_file_mismatch hh]
      · intro heq
        exact absurd heq hh
    · intro _
      rw [parse_file_mismatch hh]
      exact ⟨rfl, by simp, rfl⟩

/-- Witness for the amended C2 theorem at the empty stream (a short read:
zero header bytes presented). -/
theorem C2_header_gate_witness :
    (parse_file []).fst = .error (.err "header does not match .rm v5 file") ∧
    (parse_file []).snd = [.parsingFile, .actualHeader [],
      .expectedHeader headerBytes] := by
  have h := (C2_header_gate []).2 (by decide)
  exact ⟨h.1, by simpa using h.2.2⟩

/-- Claim C3 counterexample: a stream with brush-type 99 makes the decode
panic (the `.unwrap()` on the failed `TryFromPrimitive` conversion, which
carries only the raw number), rather than failing with a typed
`UnknownEnumValue` error naming the field. -/
theorem C3_counterexample :
    (parse_file (headerBytes ++
        [1, 0, 0, 0, 1, 0, 0, 0, 99, 0, 0, 0])).fst =
      .error (.panic (.tryFromPrimitive 99)) := by
  decide

/-- Claim C3 (amended): a decoded brush-type i32 outside 0–18, 21, or a
decoded brush-color i32 outside 0–2, makes the line decode stop with the
panic of the failed conversion, carrying the offending raw value (no field
name); it never produces a line record. -/
theorem C3_unknown_enum_panics (vt vc : Int) (rest : List Nat)
    (ht1 : -(2 ^ 31) ≤ vt) (ht2 : vt < 2 ^ 31)
    (hc1 : -(2 ^ 31) ≤ vc) (hc2 : vc < 2 ^ 31) :
    (¬(0 ≤ vt ∧ vt ≤ 18 ∨ vt = 21) →
      parseLineHeader (i32Bytes vt ++ rest) =
        .error (.panic (.tryFromPrimitive vt))) ∧
    (∀ bt, BrushType.tryFrom vt = some bt → ¬(0 ≤ vc ∧ vc ≤ 2) →
      parseLineHeader (i32Bytes vt ++ (i32Bytes vc ++ rest)) =
        .error (.panic (.tryFromPrimitive vc))) := by
  constructor
  · intro hbad
    exact parseLineHeader_badBrushType rest ht1 ht2
      ((brushType_tryFrom_none vt).mpr hbad)
  · intro bt hbt hbad
    exact parseLineHeader_badBrushColor rest ht1 ht2 hc1 hc2 hbt
      ((brushColor_tryFrom_none vc).mpr hbad)

/-- Witness for the amended C3 theorem: brush-type 99 panics with value 99;
with valid brush-type 2 (Pen), brush-color 5 panics with value 5. -/
theorem C3_unknown_enum_panics_witness :
    parseLineHeader (i32Bytes 99 ++ []) =
      .error (.panic (.tryFromPrimitive 99)) ∧
    parseLineHeader (i32Bytes 2 ++ (i32Bytes 5 ++ [])) =
      .error (.panic (.tryFromPrimitive 5)) := by
  refine ⟨(C3_unknown_enum_panics 99 5 [] (by norm_num) (by norm_num)
      (by norm_num) (by norm_num)).1 (by norm_num), ?_⟩
  exact (C3_unknown_enum_panics 2 5 [] (by norm_num) (by norm_num)
      (by norm_num) (by norm_num)).2 BrushType.Pen (by rfl) (by norm_num)

/-- Claim C4 counterexample: a stream truncated while reading the first
layer's line count and a stream truncated mid-point (after x and y, before
speed — the specification's own example) fail with the identical generic
end-of-stream panic: the failure is a panic, not a typed `TruncatedInput`,
and it identifies neither the nesting level nor the field. -/
theorem C4_counterexample :
    (parse_file (headerBytes ++ [1, 0, 0, 0])).fst =
      .error (.panic .unexpectedEof) ∧
    (parse_file (headerBytes ++
        [1, 0, 0, 0, 1, 0, 0, 0, 2, 0, 0, 0, 0, 0, 0, 0, 0, 0, 0, 0,
         0, 0, 0, 0, 0, 0, 0, 64, 2, 0, 0, 0, 0, 0, 32, 65,
         0, 0, 160, 65])).fst =
      .error (.panic .unexpectedEof) := by
  exact ⟨by decide, by decide⟩

/-- Claim C4 (amended): cutting any successfully-decoding stream anywhere
strictly inside the decoder's consumed region (at or after the 43-byte
header) exhausts the stream during some field read; the decode then fails
with the generic end-of-stream panic (the same panic value at every nesting
level and field) and returns no Document, partial or otherwise. -/
theorem C4_truncation_panics (s : List Nat) (layers : List Layer)
    (rest : List Nat) (k : Nat)
    (hhdr : s.take 43 = headerBytes)
    (hok : parseBody (s.drop 43) = .ok (layers, rest))
    (hk1 : 43 ≤ k) (hk2 : k < s.length - rest.length) :
    (parse_file (s.take k)).fst = .error (.panic .unexpectedEof) ∧
    ∀ l, (parse_file (s.take k)).fst ≠ .ok l := by
  have hs43 : 43 ≤ s.length := by
    have hlen := congrArg List.length hhdr
    rw [List.length_take, headerBytes_length] at hlen
    omega
  have htk : (s.take k).take 43 = headerBytes := by
    rw [List.take_take, min_eq_left hk1, hhdr]
  have hdk : (s.take k).drop 43 = (s.drop 43).take (k - 43) :=
    List.drop_take _ _ _
  obtain ⟨c, hc, _⟩ := good_parseBody.1 _ _ _ hok
  have hclen : (s.drop 43).length = c.length + rest.length := by
    rw [hc]
    simp
  have hdrop_len : (s.drop 43).length = s.length - 43 := by simp
  have htr : parseBody ((s.drop 43).take (k - 43)) =
      .error (.panic .unexpectedEof) := by
    apply good_parseBody.2.1 _ _ _ _ hok
    omega
  constructor
  · rw [parse_file_hdr htk, hdk, htr]
    rfl
  · intro l
    rw [parse_file_hdr htk, hdk, htr]
    simp [Except.map]

/-- Witness for the amended C4 theorem: the end-to-end example stream
(123 bytes) cut to its first 83 bytes — mid-point, right after the first
point's x and y — panics at end of stream. -/
theorem C4_truncation_panics_witness :
    (parse_file (e2eStream.take 83)).fst = .error (.panic .unexpectedEof) :=
  (C4_truncation_panics e2eStream [e2eLayer] [] 83 (by decide) (by decide)
    (by norm_num) (by decide)).1

/-- Claim C5 counterexample: a layer with declared line count -1 followed by
`24 * (2 ^ 64 - 1)` zero bytes decodes successfully to a layer whose actual
number of decoded lines is `2 ^ 64 - 1`, which differs from its declared
(negative) count: the declared i32 count and the actual length disagree. -/
theorem C5_counterexample :
    (parse_file (headerBytes ++ ([1, 0, 0, 0] ++ ([255, 255, 255, 255] ++
        List.replicate (24 * (2 ^ 64 - 1)) 0)))).fst =
      .ok [{ num_lines := -1,
             lines := List.replicate (2 ^ 64 - 1) zeroLine }] ∧
    ¬((-1 : Int) =
        ((List.replicate (2 ^ 64 - 1) zeroLine).length : Int)) := by
  constructor
  · have htake : (headerBytes ++ ([1, 0, 0, 0] ++ ([255, 255, 255, 255] ++
        List.replicate (24 * (2 ^ 64 - 1)) 0))).take 43 = headerBytes := by
      rw [← headerBytes_length]
      exact List.take_left _ _
    have hdrop : (headerBytes ++ ([1, 0, 0, 0] ++ ([255, 255, 255, 255] ++
        List.replicate (24 * (2 ^ 64 - 1)) 0))).drop 43 =
        [1, 0, 0, 0] ++ ([255, 255, 255, 255] ++
          List.replicate (24 * (2 ^ 64 - 1)) 0) := by
      rw [← headerBytes_length]
      exact List.drop_left _ _
    rw [parse_file_hdr htake, hdrop]
    have h1 : ([1, 0, 0, 0] : List Nat) = i32Bytes 1 := by decide
    have hm1 : ([255, 255, 255, 255] : List Nat) = i32Bytes (-1) := by decide
    rw [h1, hm1]
    unfold parseBody
    rw [pbind_eq_ok (readI32_i32Bytes 1 _ (by norm_num) (by norm_num))]
    have hu1 : i32AsUsize 1 = 0 + 1 := by decide
    rw [hu1]
    simp only [parseLayers]
    have hlayer : parseLayer (i32Bytes (-1) ++
        List.replicate (24 * (2 ^ 64 - 1)) 0) =
        .ok ({ num_lines := -1,
               lines := List.replicate (2 ^ 64 - 1) zeroLine }, []) := by
      unfold parseLayer
      rw [pbind_eq_ok (readI32_i32Bytes (-1) _ (by norm_num) (by norm_num))]
      have hum : i32AsUsize (-1) = 2 ^ 64 - 1 := by decide
      rw [hum]
      have hz := parseLines_zeros (2 ^ 64 - 1) []
      rw [List.append_nil] at hz
      rw [pbind_eq_ok hz]
      rfl
    rw [pbind_eq_ok hlayer]
    rfl
  · rw [List.length_replicate]
    decide

/-- Claim C5 (amended): in every successfully decoded Document, each layer's
actual number of decoded lines equals its declared line count cast to usize
(`i32AsUsize`), and each line's actual number of decoded points equals its
declared point count cast to usize; whenever a declared count is
nonnegative this is exact equality with the declared i32. -/
theorem C5_count_driven (s : List Nat) (layers : List Layer)
    (h : (parse_file s).fst = .ok layers) :
    ∀ layer ∈ layers,
      layer.lines.length = i32AsUsize layer.num_lines ∧
      (0 ≤ layer.num_lines → layer.num_lines < 2 ^ 31 →
        (layer.lines.length : Int) = layer.num_lines) ∧
      ∀ line ∈ layer.lines,
        line.points.length = i32AsUsize line.num_points ∧
        (0 ≤ line.num_points → line.num_points < 2 ^ 31 →
          (line.points.length : Int) = line.num_points) := by
  obtain ⟨hh, rest, hbody⟩ := parse_file_ok h
  intro layer hmem
  obtain ⟨hlen, hinv⟩ := parseBody_ok hbody layer hmem
  refine ⟨hlen, ?_, ?_⟩
  · intro h0 h31
    rw [hlen, i32AsUsize_nonneg _ h0 h31]
  · intro line hline
    refine ⟨hinv line hline, ?_⟩
    intro h0 h31
    rw [hinv line hline, i32AsUsize_nonneg _ h0 h31]

/-- Witness for the amended C5 theorem on the end-to-end example: the single
layer declares one line and holds one line; it declares two points and holds
two. -/
theorem C5_count_driven_witness :
    e2eLayer.lines.length = i32AsUsize e2eLayer.num_lines ∧
    (e2eLayer.lines.length : Int) = e2eLayer.num_lines ∧
    e2eLine.points.length = i32AsUsize e2eLine.num_points := by
  have h := C5_count_driven e2eStream [e2eLayer] (by decide) e2eLayer
    (by simp)
  refine ⟨h.1, h.2.1 (by decide) (by decide), ?_⟩
  exact (h.2.2 e2eLine (by simp [e2eLayer])).1

/-- Claim C6: for every Document, `render_svg` produces exactly one group
per layer, appended in layer order, and within each group exactly one path
per line, appended in line order. -/
theorem C6_structural_preservation (layers : List Layer) :
    render_svg layers = .ok
      { width := X_MAX, height := Y_MAX, viewBox := (0, 0, X_MAX, Y_MAX),
        groups := layers.map layerGroup } ∧
    ∀ layer, (layerGroup layer).paths = layer.lines.map linePath :=
  ⟨render_svg_eq layers, layerGroup_paths⟩

/-- Claim C7: for every line with at least one point, the projected path's
command list has exactly one command per point: a move to the first point's
exact (x, y) bit patterns followed by a line to each subsequent point's
exact (x, y), in original order, with the coordinates carried unchanged. -/
theorem C7_path_commands (line : Line) (p : Point) (ps : List Point)
    (h : line.points = p :: ps) :
    (linePath line).d =
      PathCmd.moveTo p.x p.y :: ps.map (fun q => PathCmd.lineTo q.x q.y) ∧
    (linePath line).d.length = line.points.length := by
  constructor
  · show lineData line.points = _
    rw [h, lineData_cons]
  · show (lineData line.points).length = _
    exact lineData_length _

/-- Witness for C7 at the end-to-end example line: move to (10.0, 20.0),
line to (15.0, 25.0). -/
theorem C7_path_commands_witness :
    (linePath e2eLine).d =
      PathCmd.moveTo e2ePoint1.x e2ePoint1.y ::
        [e2ePoint2].map (fun q => PathCmd.lineTo q.x q.y) ∧
    (linePath e2eLine).d.length = e2eLine.points.length :=
  C7_path_commands e2eLine e2ePoint1 [e2ePoint2] rfl

/-- Claim C8: `render_svg` is total over all Documents — it always returns
`Ok` — and a line with zero points yields a path whose command list is
empty, never an error. -/
theorem C8_projector_total (layers : List Layer) :
    (∃ doc, render_svg layers = .ok doc) ∧
    ∀ line : Line, line.points = [] → (linePath line).d = [] := by
  refine ⟨⟨_, render_svg_eq layers⟩, ?_⟩
  intro line h
  show lineData line.points = []
  rw [h]
  rfl

/-- Witness for C8: a line with no points (the all-zero line) projects to a
path with no drawing commands. -/
theorem C8_projector_total_witness : (linePath zeroLine).d = [] :=
  (C8_projector_total []).2 zeroLine rfl

/-- Claim C9: every projected document carries the fixed canvas viewport
`0 0 1404 1872` (the two canvas constants, independent of the input), and
every path is styled identically — no fill, black stroke, stroke width 3,
round joins and caps — regardless of the line's brush type, color or
size. -/
theorem C9_viewport_styling (layers : List Layer) (doc : SvgDoc)
    (h : render_svg layers = .ok doc) :
    doc.width = X_MAX ∧ doc.height = Y_MAX ∧ X_MAX = 1404 ∧ Y_MAX = 1872 ∧
    doc.viewBox = (0, 0, 1404, 1872) ∧
    ∀ g ∈ doc.groups, ∀ path ∈ g.paths,
      path.fill = "none" ∧ path.stroke = "black" ∧ path.strokeWidth = 3 ∧
      path.strokeLinejoin = "round" ∧ path.strokeLinecap = "round" := by
  rw [render_svg_eq layers] at h
  injection h with h
  subst h
  refine ⟨rfl, rfl, rfl, rfl, rfl, ?_⟩
  intro g hg path hp
  obtain ⟨layer, _, rfl⟩ := List.mem_map.mp hg
  rw [layerGroup_paths] at hp
  obtain ⟨line, _, rfl⟩ := List.mem_map.mp hp
  exact ⟨rfl, rfl, rfl, rfl, rfl⟩

/-- Witness for C9 at the empty Document. -/
theorem C9_viewport_styling_witness :
    ({ width := X_MAX, height := Y_MAX, viewBox := (0, 0, X_MAX, Y_MAX),
       groups := List.map layerGroup [] } : SvgDoc).viewBox =
      (0, 0, 1404, 1872) :=
  (C9_viewport_styling [] _ (render_svg_eq [])).2.2.2.2.1

/-- Claim C10: the metadata fields read for a line before its points (brush
type, brush color, the reserved `padding` field, the `unknown` field, brush
size, and the declared point count) are carried unchanged into the final
line record: attaching the decoded point list modifies no other field. -/
theorem C10_line_metadata_frame (s : List Nat) (line lh : Line)
    (s1 rest : List Nat)
    (hline : parseLine s = .ok (line, rest))
    (hlh : parseLineHeader s = .ok (lh, s1)) :
    line.brush_type = lh.brush_type ∧ line.brush_color = lh.brush_color ∧
    line.padding = lh.padding ∧ line.unknown = lh.unknown ∧
    line.brush_size = lh.brush_size ∧ line.num_points = lh.num_points := by
  obtain ⟨lh', s1', pts, hlh', hpts, hdef⟩ := parseLine_ok hline
  rw [hlh] at hlh'
  injection hlh' with hlh'
  have hlh2 : lh = lh' := congrArg Prod.fst hlh'
  subst hdef
  rw [hlh2]
  exact ⟨rfl, rfl, rfl, rfl, rfl, rfl⟩

/-- Witness for C10 on the end-to-end example's line bytes
(`e2eStream` after header, layer count and line count). -/
theorem C10_line_metadata_frame_witness :
    e2eLine.brush_type = e2eLineHeader.brush_type ∧
    e2eLine.brush_color = e2eLineHeader.brush_color ∧
    e2eLine.padding = e2eLineHeader.padding ∧
    e2eLine.unknown = e2eLineHeader.unknown ∧
    e2eLine.brush_size = e2eLineHeader.brush_size ∧
    e2eLine.num_points = e2eLineHeader.num_points :=
  C10_line_metadata_frame (e2eStream.drop 51) e2eLine e2eLineHeader
    (e2eStream.drop 75) [] (by decide) (by decide)


end Relineate
